import Mathlib

/-!
Verification of the ai-intel-hub content pipeline.

The development shallowly embeds the Python sources:
  assistants/content_ranker.py, assistants/idea_generator.py,
  assistants/telegram_bot.py, pipeline/orchestrator.py.

Python dictionaries are modelled as association lists over a JSON-like
value type `Val`; in-place mutation of a dictionary becomes functional
update (`dictSet`), and a loop that mutates a list of dictionaries
becomes a recursion returning the updated list.  External calls
(OpenAI embeddings and chat completions, HTTP transport, the system
clock) are modelled as oracle parameters; an oracle returning
`Except.error` models the call raising an exception.
-/

namespace AIIntelHub

/-- Python/JSON-like values: None, bool, int, float (as a rational),
str, list and dict (association list with string keys). -/
inductive Val : Type where
  | vnull : Val
  | vbool : Bool → Val
  | vint : Int → Val
  | vnum : ℚ → Val
  | vstr : String → Val
  | vlist : List Val → Val
  | vdict : List (String × Val) → Val
deriving Repr

/-- A Python dictionary with string keys, as an association list kept
in insertion order (the order Python dictionaries preserve). -/
abbrev Dict := List (String × Val)

/-- Python `d.get(k)` / `d[k]`: lookup of a key (dictionaries built by
the embedded code never hold duplicate keys, so first match is THE
match). -/
def dictGet (d : Dict) (k : String) : Option Val :=
  match d with
  | [] => none
  | (k', v) :: rest => if k' = k then some v else dictGet rest k

/-- Python `d.get(k, default)`. -/
def dictGetD (d : Dict) (k : String) (dflt : Val) : Val :=
  (dictGet d k).getD dflt

/-- Python `d[k] = v`: replaces the value in place when the key exists
(keeping its position, as CPython dicts do) and appends otherwise. -/
def dictSet (d : Dict) (k : String) (v : Val) : Dict :=
  match d with
  | [] => [(k, v)]
  | (k', v') :: rest => if k' = k then (k, v) :: rest else (k', v') :: dictSet rest k v

/-- Python `str(x)` as used by the f-strings of the sources.  The
embedded code only ever interpolates strings (titles, summaries,
urls), for which `str` is the identity; the other clauses give a fixed
rendering so the function is total. -/
def pyStr : Val → String
  | .vstr s => s
  | .vnull => "None"
  | .vbool true => "True"
  | .vbool false => "False"
  | .vint n => toString n
  | .vnum q => toString q
  | .vlist _ => "<list>"
  | .vdict _ => "<dict>"

/-! ### Basic dictionary lemmas -/

theorem dictGet_dictSet_self (d : Dict) (k : String) (v : Val) :
    dictGet (dictSet d k v) k = some v := by
  induction d with
  | nil => simp [dictSet, dictGet]
  | cons p rest ih =>
    obtain ⟨k', v'⟩ := p
    by_cases h : k' = k
    · simp [dictSet, dictGet, h]
    · simp [dictSet, dictGet, h, ih]

theorem dictGet_dictSet_ne (d : Dict) (k k' : String) (v : Val) (h : k ≠ k') :
    dictGet (dictSet d k v) k' = dictGet d k' := by
  induction d with
  | nil => simp [dictSet, dictGet, h]
  | cons p rest ih =>
    obtain ⟨k₀, v₀⟩ := p
    by_cases h₀ : k₀ = k
    · subst h₀
      simp [dictSet, dictGet, h]
    · simp [dictSet, dictGet, h₀, ih]

theorem dictGetD_dictSet_ne (d : Dict) (k k' : String) (v dflt : Val) (h : k ≠ k') :
    dictGetD (dictSet d k v) k' dflt = dictGetD d k' dflt := by
  simp [dictGetD, dictGet_dictSet_ne d k k' v h]

/-! ## assistants/content_ranker.py -/

/-- Text built for an article by `score_content_relevance`
(the Python expression is the f-string of title and summary with
empty-string defaults). -/
def articleText (a : Dict) : String :=
  pyStr (dictGetD a "title" (.vstr "")) ++ " " ++ pyStr (dictGetD a "summary" (.vstr ""))

/-- The scoring loop of `score_content_relevance` (the body of the
`try:` block up to the sort).  The oracle `sim` models, for one
article text, the composition of `_get_embedding` with
`_cosine_similarity` against the reference embedding; `Except.error`
models an exception raised there.  Python mutates each article dict in
place before moving to the next one, so when an exception occurs the
loop stops and the whole list — with the scores applied so far — is
what `except ... return articles` hands back; `.error` carries that
list. -/
def scoreLoop (sim : String → Except Unit ℚ) : List Dict → Except (List Dict) (List Dict)
  | [] => .ok []
  | a :: rest =>
    match sim (articleText a) with
    | .error _ => .error (a :: rest)
    | .ok q =>
      let a' := dictSet a "relevance_score" (.vnum q)
      match scoreLoop sim rest with
      | .error rest' => .error (a' :: rest')
      | .ok rest' => .ok (a' :: rest')

/-- The sort key `lambda x: x["relevance_score"]` (after the scoring
loop every article carries a `vnum` score; the default is never
reached in the flows proved below). -/
def scoreKey (d : Dict) : ℚ :=
  match dictGet d "relevance_score" with
  | some (.vnum q) => q
  | _ => 0

/-- Relation realising Python `sorted(articles, key=score, reverse=True)`:
`a` may precede `b` when its score is at least `b`'s. -/
def scoreGe (a b : Dict) : Prop := scoreKey b ≤ scoreKey a

instance : DecidableRel scoreGe := fun a b =>
  inferInstanceAs (Decidable (scoreKey b ≤ scoreKey a))

instance : IsTotal Dict scoreGe :=
  ⟨fun a b => (le_total (scoreKey b) (scoreKey a)).imp id id⟩

instance : IsTrans Dict scoreGe :=
  ⟨fun _ _ _ hab hbc => le_trans hbc hab⟩

/-- Python `sorted(articles, key=lambda x: x["relevance_score"], reverse=True)`:
a stable descending sort. -/
def sortByScoreDesc (l : List Dict) : List Dict :=
  List.insertionSort scoreGe l

/-- The rank loop `for i, article in enumerate(ranked): article["rank"] = i + 1`,
with `i0` the number of articles already ranked. -/
def addRanks (i0 : ℕ) : List Dict → List Dict
  | [] => []
  | a :: l => dictSet a "rank" (.vint (i0 + 1)) :: addRanks (i0 + 1) l

/-- The degraded loop taken when `self.client` is absent:
`article["relevance_score"] = 0.5; article["rank"] = i + 1`. -/
def degradeLoop (i0 : ℕ) : List Dict → List Dict
  | [] => []
  | a :: l =>
    dictSet (dictSet a "relevance_score" (.vnum (1/2))) "rank" (.vint (i0 + 1))
      :: degradeLoop (i0 + 1) l

/-- `ContentRanker.score_content_relevance`.  `client` is the presence
of the OpenAI client (an API key was configured); `sim` is the scoring
oracle. -/
def score_content_relevance (client : Bool) (sim : String → Except Unit ℚ)
    (articles : List Dict) : List Dict :=
  if client = false then
    degradeLoop 0 articles
  else
    match scoreLoop sim articles with
    | .error arts => arts
    | .ok scored => addRanks 0 (sortByScoreDesc scored)

/-- `ContentRanker.get_top_content`: rank, then Python slice `[:top_x]`. -/
def get_top_content (client : Bool) (sim : String → Except Unit ℚ)
    (articles : List Dict) (top_x : ℕ) : List Dict :=
  (score_content_relevance client sim articles).take top_x

/-! ## assistants/idea_generator.py -/

/-- The f-string prompt template of `_generate_ideas_for_article`. -/
def promptFor (title summary : String) : String :=
  "\nBased on this research article, generate content ideas:\n\nTitle: " ++ title ++
  "\nSummary: " ++ summary ++
  "\n\nPlease provide:\n1. ONE social media post idea (5 sentences max) - engaging, shareable content that highlights the key insight\n2. ONE article idea (5 sentences max) - a deeper dive or practical application of this research\n\nFormat your response exactly like this:\nPOST IDEA: [your post idea here]\nARTICLE IDEA: [your article idea here]\n"

/-- The line-scanning parse of the model response: each matching line
overwrites the corresponding idea, so the last matching line wins,
exactly as the Python `for line in lines` assignment loop does. -/
def parseIdeaLines (lines : List String) : String × String :=
  lines.foldl (fun pa line =>
    if line.startsWith "POST IDEA:" then ((line.replace "POST IDEA:" "").trim, pa.2)
    else if line.startsWith "ARTICLE IDEA:" then (pa.1, (line.replace "ARTICLE IDEA:" "").trim)
    else pa) ("", "")

/-- `IdeaGenerator._generate_ideas_for_article`.  The oracle `llm`
models the chat-completion call on the prompt, returning the stripped
message content or raising; the internal `try/except` turns a raise
into the two fixed error strings. -/
def generate_ideas_for_article (llm : String → Except Unit String)
    (title summary : String) : String × String :=
  match llm (promptFor title summary) with
  | .error _ => ("Error generating post idea", "Error generating article idea")
  | .ok raw =>
    let content := raw.trim
    let pa := parseIdeaLines (content.splitOn "\n")
    if pa.1 = "" ∨ pa.2 = "" then
      match content.splitOn "ARTICLE IDEA:" with
      | [p0, a0] =>
        let post_part := (p0.replace "POST IDEA:" "").trim
        let article_part := a0.trim
        ((if post_part = "" then "Generated post idea" else post_part),
         (if article_part = "" then "Generated article idea" else article_part))
      | _ =>
        ((if content.length > 150 then content.take 150 ++ "..." else content),
         "Related article opportunity")
    else pa

/-- The per-article body of `create_content_ideas`: read title and
summary (with the `description` fallback), generate the two ideas, and
`article.copy()` + `update` with the two new fields.  The surrounding
per-article `try/except` of the source cannot fire in this embedding
because `generate_ideas_for_article` already catches its one fallible
call, and the remaining operations are total dictionary accesses. -/
def itemTitle (article : Dict) : String :=
  pyStr (dictGetD article "title" (.vstr ""))

def itemSummary (article : Dict) : String :=
  pyStr (dictGetD article "summary" (dictGetD article "description" (.vstr "")))

def enrichOne (llm : String → Except Unit String) (article : Dict) : Dict :=
  let pa := generate_ideas_for_article llm (itemTitle article) (itemSummary article)
  dictSet (dictSet article "post_idea" (.vstr pa.1)) "article_idea" (.vstr pa.2)

/-- `IdeaGenerator.create_content_ideas`.  Without a client the
articles are returned untouched; otherwise each article is enriched
independently and appended in order. -/
def create_content_ideas (client : Bool) (llm : String → Except Unit String)
    (articles : List Dict) : List Dict :=
  if client = false then articles
  else articles.map (enrichOne llm)

/-! ## assistants/telegram_bot.py -/

/-- The two configuration reads of `TelegramBot.__init__`
(`TELEGRAM_BOT_TOKEN` and `TELEGRAM_CHAT_ID`). -/
structure BotState where
  bot_token : Option String
  chat_id : Option Val
deriving Repr

/-- The chain `data["result"][-1]["message"]["chat"]["id"]`; `none`
models a `KeyError`/`TypeError` raised along the chain. -/
def chatIdOfMessage (m : Val) : Option Val :=
  match m with
  | .vdict md =>
    match dictGet md "message" with
    | some (.vdict msg) =>
      match dictGet msg "chat" with
      | some (.vdict chat) => dictGet chat "id"
      | _ => none
    | _ => none
  | _ => none

/-- `TelegramBot.set_chat_id`.  `getResp` models
`requests.get(url)` followed by `.json()`: `.error` is a raised
transport or parse exception — the source wraps this call in no
`try/except`, so `.error` propagates.  On HTTP 200 the update list is
inspected; a malformed body raises (`.error`), an empty list prints
and returns `None`, and a populated list stores the discovered chat
id.  A non-200 response falls off the end of the function
(returns `None`). -/
def set_chat_id (st : BotState) (getResp : Except Unit (ℕ × Val)) :
    Except Unit (Option Val × BotState) :=
  match st.bot_token with
  | none => .ok (none, st)
  | some _ =>
    match getResp with
    | .error _ => .error ()
    | .ok (status, body) =>
      if status = 200 then
        match body with
        | .vdict d =>
          match dictGet d "result" with
          | some (.vlist []) => .ok (none, st)
          | some (.vlist (r :: rs)) =>
            match chatIdOfMessage ((r :: rs).getLastD r) with
            | some cid => .ok (some cid, ⟨st.bot_token, some cid⟩)
            | none => .error ()
          | _ => .error ()
        | _ => .error ()
      else .ok (none, st)

/-- `TelegramBot.send_message`.  `post` models
`requests.post(url, json=data)` returning a status code or raising.
The result carries the returned boolean, the bot state after any chat
id discovery, and the number of outbound POST calls issued.  An
`.error` result models the method itself raising — which happens
exactly when the unguarded discovery call inside `set_chat_id`
raises. -/
def send_message (st : BotState) (getResp : Except Unit (ℕ × Val))
    (post : Except Unit ℕ) (_text : String) : Except Unit (Bool × BotState × ℕ) :=
  match st.bot_token with
  | none => .ok (false, st, 0)
  | some _ =>
    match st.chat_id with
    | none =>
      match set_chat_id st getResp with
      | .error e => .error e
      | .ok (_, st') => .ok (false, st', 0)
    | some _ =>
      match post with
      | .ok status => .ok (status = 200, st, 1)
      | .error _ => .ok (false, st, 1)

/-- The message-building loop of `send_daily_summary`, numbering the
articles from `i`.  `none` models the `KeyError` raised by
`article["title"]` / `article["url"]` when a field is absent. -/
def summaryLines (i : ℕ) : List Dict → Option String
  | [] => some ""
  | a :: l =>
    match dictGet a "title", dictGet a "url" with
    | some t, some u =>
      match summaryLines (i + 1) l with
      | some rest =>
        some (toString i ++ ". " ++ pyStr t ++ "\n" ++ "   " ++ pyStr u ++ "\n\n" ++ rest)
      | none => none
    | _, _ => none

/-- `TelegramBot.send_daily_summary` (a `None`-returning method: the
`.ok` payload is the final bot state and the number of outbound POST
calls).  `today` models `datetime.now().strftime('%B %d')` and `link`
the interpolated `content_engine_https` value. -/
def send_daily_summary (st : BotState) (getResp : Except Unit (ℕ × Val))
    (post : Except Unit ℕ) (today link : String) (articles : List Dict) :
    Except Unit (BotState × ℕ) :=
  if articles.length = 0 then
    match send_message st getResp post "🤖 Daily AI Summary\n\nNo articles found today." with
    | .error e => .error e
    | .ok (_, st', n) => .ok (st', n)
  else
    match summaryLines 1 articles with
    | none => .error ()
    | some body =>
      let msg := "🤖 Daily AI Summary - " ++ today ++ "\n\n" ++
        "Click here to read more articles: " ++ link ++ "\n\nTop Articles:\n\n" ++ body
      match send_message st getResp post msg with
      | .error e => .error e
      | .ok (_, st', n) => .ok (st', n)

/-! ## pipeline/orchestrator.py -/

/-- The value of `raw_data`: a Python dict mapping the two source-type
keys to the collected item lists, in insertion order. -/
abbrev RawData := List (String × List Dict)

/-- `ContentPipeline.gather_all_data`.  The collector calls are
oracles (`.error` models a raised exception); both collectors of the
repository construct their items as dictionary literals, so a
successful call yields a list of dictionaries.  Python evaluates the
research call first, so an exception in either call reaches the
`except` branch, which returns both buckets empty. -/
def gather_all_data (researchO rssO : Except Unit (List Dict)) : RawData :=
  match researchO, rssO with
  | .ok r, .ok s => [("research", r), ("rss", s)]
  | _, _ => [("research", []), ("rss", [])]

/-- The structured-item literal built by `clean_and_structure_data`
for one raw item. -/
def structureItem (source_type : String) (item : Dict) : Dict :=
  [("title", dictGetD item "title" (.vstr "")),
   ("summary", dictGetD item "summary" (.vstr "")),
   ("source", dictGetD item "source" (.vstr "")),
   ("url", dictGetD item "url" (.vstr "")),
   ("published_date", dictGetD item "published_date" (.vstr "")),
   ("category", dictGetD item "category" (.vstr "")),
   ("keywords", dictGetD item "keywords" (.vlist [])),
   ("source_type", .vstr source_type),
   ("original_data", .vdict item)]

/-- `ContentPipeline.clean_and_structure_data`: iterate the buckets in
insertion order, appending one structured item per raw item.  The
`if isinstance(items, list) and items:` guard only skips empty
buckets, which contribute nothing either way. -/
def clean_and_structure_data : RawData → List Dict
  | [] => []
  | (st, items) :: rest => items.map (structureItem st) ++ clean_and_structure_data rest

/-- `ContentPipeline.rank_content_by_relevance`.  The wrapped call is
`get_top_content`, which is total in this embedding (every exception
inside the ranker is caught by the ranker itself), so the guarding
`try/except` — whose fallback is the slice `articles[:top_n]` — never
fires; the `Except` match transcribes it nonetheless. -/
def rank_content_by_relevance (client : Bool) (sim : String → Except Unit ℚ)
    (articles : List Dict) (top_n : ℕ) : List Dict :=
  match (Except.ok (get_top_content client sim articles top_n) : Except Unit (List Dict)) with
  | .ok ranked => ranked
  | .error _ => articles.take top_n

/-- `ContentPipeline.generate_creative_ideas`.  As with ranking, the
wrapped `create_content_ideas` is total here, so the placeholder
fallback of the `except` branch is dead code, transcribed as the
unreachable `.error` arm. -/
def generate_creative_ideas (client : Bool) (llm : String → Except Unit String)
    (ranked : List Dict) : List Dict :=
  match (Except.ok (create_content_ideas client llm ranked) : Except Unit (List Dict)) with
  | .ok ideas => ideas
  | .error _ =>
    ranked.map (fun a =>
      dictSet (dictSet a "post_idea" (.vstr "Manual post idea needed"))
        "article_idea" (.vstr "Manual article idea needed"))

/-- The success summary dictionary of `run_complete_pipeline`
(step 5). -/
def pipelineSummary (now : String) (raw : RawData)
    (structured ranked ideas : List Dict) : Dict :=
  [("timestamp", .vstr now),
   ("total_collected", .vint structured.length),
   ("top_ranked", .vint ranked.length),
   ("ideas_generated", .vint ideas.length),
   ("ranked_articles", .vlist (ranked.map .vdict)),
   ("content_ideas", .vlist (ideas.map .vdict)),
   ("sources_used", .vlist (raw.map (fun p => .vstr p.1)))]

/-- Construction of the final summary object, as the fallible step the
outer `try/except` guards: building the dictionary performs only
length computations and list projections, none of which can raise, so
the construction always succeeds. -/
def mkSummaryE (now : String) (raw : RawData)
    (structured ranked ideas : List Dict) : Except String Dict :=
  .ok (pipelineSummary now raw structured ranked ideas)

/-- The failure object returned by the outer `except` branch of
`run_complete_pipeline`. -/
def pipelineFailure (now err : String) : Dict :=
  [("timestamp", .vstr now), ("error", .vstr err), ("status", .vstr "failed")]

/-- `ContentPipeline.run_complete_pipeline`:
Collect, Structure, Rank, Enrich, then the summary construction, with
the outer `try/except` producing the failure object when the summary
construction raises. -/
def run_complete_pipeline (researchO rssO : Except Unit (List Dict))
    (rclient : Bool) (sim : String → Except Unit ℚ)
    (iclient : Bool) (llm : String → Except Unit String)
    (now : String) (top_n : ℕ) : Dict :=
  let raw := gather_all_data researchO rssO
  let structured := clean_and_structure_data raw
  let ranked := rank_content_by_relevance rclient sim structured top_n
  let ideas := generate_creative_ideas iclient llm ranked
  match mkSummaryE now raw structured ranked ideas with
  | .ok res => res
  | .error e => pipelineFailure now e

/-! ## JSON persistence (generate_content_and_notify) -/

/-- The JSON documents `json.dump` writes: `vint`/`vnum` keep the
textual int/float distinction the Python json module round-trips. -/
inductive Json : Type where
  | jnull : Json
  | jbool : Bool → Json
  | jint : Int → Json
  | jfloat : ℚ → Json
  | jstr : String → Json
  | jarr : List Json → Json
  | jobj : List (String × Json) → Json
deriving Repr

mutual

/-- `json.dump`: the document written for a Python value (all values
reaching the snapshot file are JSON-serialisable: string-keyed dicts,
lists, strings and numbers). -/
def dumpVal : Val → Json
  | .vnull => .jnull
  | .vbool b => .jbool b
  | .vint n => .jint n
  | .vnum q => .jfloat q
  | .vstr s => .jstr s
  | .vlist xs => .jarr (dumpList xs)
  | .vdict fs => .jobj (dumpFields fs)

def dumpList : List Val → List Json
  | [] => []
  | v :: vs => dumpVal v :: dumpList vs

def dumpFields : List (String × Val) → List (String × Json)
  | [] => []
  | (k, v) :: fs => (k, dumpVal v) :: dumpFields fs

end

mutual

/-- `json.load`: the Python value parsed back from a document. -/
def loadVal : Json → Val
  | .jnull => .vnull
  | .jbool b => .vbool b
  | .jint n => .vint n
  | .jfloat q => .vnum q
  | .jstr s => .vstr s
  | .jarr xs => .vlist (loadList xs)
  | .jobj fs => .vdict (loadFields fs)

def loadList : List Json → List Val
  | [] => []
  | j :: js => loadVal j :: loadList js

def loadFields : List (String × Json) → List (String × Val)
  | [] => []
  | (k, j) :: fs => (k, loadVal j) :: loadFields fs

end

/-- The `feed_data` dictionary written by `generate_content_and_notify`. -/
def mkFeedData (now : String) (ideas : List Dict) : Val :=
  .vdict [("last_updated", .vstr now), ("content_ideas", .vlist (ideas.map .vdict))]

/-- Writing the snapshot file and reading it back:
`json.dump` to `data/latest_feed.json` followed by `json.load`. -/
def persistAndRead (feed : Val) : Val :=
  loadVal (dumpVal feed)

/-- The read-back step `saved_data.get('content_ideas', [])`. -/
def readFeedArticles (saved : Val) : Val :=
  match saved with
  | .vdict d => dictGetD d "content_ideas" (.vlist [])
  | _ => .vlist []

/-! ## Lemmas about the scoring loop -/

/-- One article of the successful scoring pass: the oracle produced a
similarity for the article's text and the article was updated in
place with it. -/
def scoredFrom (sim : String → Except Unit ℚ) (a s : Dict) : Prop :=
  ∃ q, sim (articleText a) = .ok q ∧ s = dictSet a "relevance_score" (.vnum q)

theorem scoreLoop_ok_spec (sim : String → Except Unit ℚ) :
    ∀ {arts scored : List Dict}, scoreLoop sim arts = .ok scored →
      List.Forall₂ (scoredFrom sim) arts scored := by
  intro arts
  induction arts with
  | nil =>
    intro scored h
    simp only [scoreLoop] at h
    injection h with h
    subst h
    exact List.Forall₂.nil
  | cons a rest ih =>
    intro scored h
    simp only [scoreLoop] at h
    cases hsim : sim (articleText a) with
    | error e => rw [hsim] at h; cases h
    | ok q =>
      rw [hsim] at h
      cases hrec : scoreLoop sim rest with
      | error r =>
        simp only [hrec] at h
        exact Except.noConfusion h
      | ok r =>
        simp only [hrec] at h
        injection h with h
        subst h
        exact List.Forall₂.cons ⟨q, hsim, rfl⟩ (ih hrec)

theorem scoreLoop_error_spec (sim : String → Except Unit ℚ) :
    ∀ {arts out : List Dict}, scoreLoop sim arts = .error out →
      ∃ pre pre' a suf,
        arts = pre ++ a :: suf ∧ out = pre' ++ a :: suf ∧
        List.Forall₂ (scoredFrom sim) pre pre' ∧
        sim (articleText a) = .error () := by
  intro arts
  induction arts with
  | nil => intro out h; simp [scoreLoop] at h
  | cons a rest ih =>
    intro out h
    simp only [scoreLoop] at h
    cases hsim : sim (articleText a) with
    | error e =>
      rw [hsim] at h
      injection h with h
      exact ⟨[], [], a, rest, rfl, h.symm, List.Forall₂.nil, by cases e; exact hsim⟩
    | ok q =>
      rw [hsim] at h
      cases hrec : scoreLoop sim rest with
      | error r =>
        simp only [hrec] at h
        injection h with h
        obtain ⟨pre, pre', b, suf, h1, h2, h3, h4⟩ := ih hrec
        exact ⟨a :: pre, dictSet a "relevance_score" (.vnum q) :: pre', b, suf,
          by rw [h1, List.cons_append], by rw [← h, h2, List.cons_append],
          List.Forall₂.cons ⟨q, hsim, rfl⟩ h3, h4⟩
      | ok r =>
        simp only [hrec] at h
        exact Except.noConfusion h

theorem degradeLoop_length : ∀ (i0 : ℕ) (l : List Dict), (degradeLoop i0 l).length = l.length
  | _, [] => rfl
  | i0, _ :: l => by simp [degradeLoop, degradeLoop_length (i0 + 1) l]

theorem degradeLoop_getD (i0 : ℕ) (l : List Dict) (i : ℕ) (hi : i < l.length) :
    (degradeLoop i0 l).getD i []
      = dictSet (dictSet (l.getD i []) "relevance_score" (.vnum (1/2)))
          "rank" (.vint (i0 + i + 1)) := by
  induction l generalizing i0 i with
  | nil => simp at hi
  | cons a rest ih =>
    cases i with
    | zero => rfl
    | succ i =>
      have hi' : i < rest.length := by simpa using hi
      have := ih (i0 + 1) i hi'
      simp only [degradeLoop, List.getD_cons_succ, this]
      congr 2
      omega

theorem addRanks_length : ∀ (i0 : ℕ) (l : List Dict), (addRanks i0 l).length = l.length
  | _, [] => rfl
  | i0, _ :: l => by simp [addRanks, addRanks_length (i0 + 1) l]

theorem addRanks_getD (i0 : ℕ) (l : List Dict) (i : ℕ) (hi : i < l.length) :
    (addRanks i0 l).getD i []
      = dictSet (l.getD i []) "rank" (.vint (i0 + i + 1)) := by
  induction l generalizing i0 i with
  | nil => simp at hi
  | cons a rest ih =>
    cases i with
    | zero => rfl
    | succ i =>
      have hi' : i < rest.length := by simpa using hi
      have := ih (i0 + 1) i hi'
      simp only [addRanks, List.getD_cons_succ, this]
      congr 2
      omega

theorem score_content_relevance_length (client : Bool) (sim : String → Except Unit ℚ)
    (articles : List Dict) :
    (score_content_relevance client sim articles).length = articles.length := by
  cases client with
  | false => simpa [score_content_relevance] using degradeLoop_length 0 articles
  | true =>
    simp only [score_content_relevance]
    cases h : scoreLoop sim articles with
    | error out =>
      obtain ⟨pre, pre', a, suf, h1, h2, h3, _⟩ := scoreLoop_error_spec sim h
      simp [h1, h2, h3.length_eq]
    | ok scored =>
      have hlen := (scoreLoop_ok_spec sim h).length_eq
      simp [addRanks_length, sortByScoreDesc, List.length_insertionSort, ← hlen]

/-- Claim C2: with no scoring service configured, every item keeps its
other fields and its original position, gets `relevance_score = 0.5`,
and `rank` equal to its original 1-based position. -/
theorem noClient_preserves_order_with_default_scores
    (sim : String → Except Unit ℚ) (articles : List Dict) (i : ℕ)
    (hi : i < articles.length) :
    (score_content_relevance false sim articles).length = articles.length ∧
    dictGet ((score_content_relevance false sim articles).getD i []) "relevance_score"
      = some (.vnum (1/2)) ∧
    dictGet ((score_content_relevance false sim articles).getD i []) "rank"
      = some (.vint (i + 1)) ∧
    ∀ k, k ≠ "relevance_score" → k ≠ "rank" →
      dictGet ((score_content_relevance false sim articles).getD i []) k
        = dictGet (articles.getD i []) k := by
  have hout : score_content_relevance false sim articles = degradeLoop 0 articles := by
    simp [score_content_relevance]
  have hget := degradeLoop_getD 0 articles i hi
  refine ⟨by simpa [hout] using degradeLoop_length 0 articles, ?_, ?_, ?_⟩
  · rw [hout, hget, dictGet_dictSet_ne _ "rank" "relevance_score" _ (by decide),
      dictGet_dictSet_self]
  · rw [hout, hget, dictGet_dictSet_self]
    norm_num
  · intro k hk1 hk2
    rw [hout, hget, dictGet_dictSet_ne _ "rank" k _ (fun h => hk2 h.symm),
      dictGet_dictSet_ne _ "relevance_score" k _ (fun h => hk1 h.symm)]

theorem noClient_preserves_order_with_default_scores_witness :
    (0 : ℕ) < ([[("title", Val.vstr "t"), ("url", Val.vstr "u")]] : List Dict).length ∧
    dictGet ((score_content_relevance false (fun _ => .error ())
        [[("title", Val.vstr "t"), ("url", Val.vstr "u")]]).getD 0 []) "rank"
      = some (.vint 1) := by
  refine ⟨by decide, ?_⟩
  have h := noClient_preserves_order_with_default_scores (fun _ => .error ())
    [[("title", Val.vstr "t"), ("url", Val.vstr "u")]] 0 (by decide)
  simpa using h.2.2.1

/-! ## Claim C3: behaviour of the scoring pass on an exception -/

/-- Scoring oracle for the C3 counterexample: the first article's text
is scored, the second one's raises. -/
def simCexC3 : String → Except Unit ℚ :=
  fun s => if s = "a " then .ok (9/10) else .error ()

def cexArtA : Dict := [("title", .vstr "a")]

def cexArtB : Dict := [("title", .vstr "b")]

/-- Counterexample to claim C3 as stated: when the second article's
scoring raises, the returned sequence is NOT the original one — the
first article already carries the relevance score applied in place
before the exception. -/
theorem partialScores_not_discarded_counterexample :
    score_content_relevance true simCexC3 [cexArtA, cexArtB]
      = [dictSet cexArtA "relevance_score" (.vnum (9/10)), cexArtB] ∧
    dictGet ((score_content_relevance true simCexC3 [cexArtA, cexArtB]).getD 0 [])
      "relevance_score" = some (.vnum (9/10)) ∧
    dictGet (([cexArtA, cexArtB] : List Dict).getD 0 []) "relevance_score" = none ∧
    score_content_relevance true simCexC3 [cexArtA, cexArtB] ≠ [cexArtA, cexArtB] := by
  refine ⟨rfl, rfl, rfl, ?_⟩
  intro h
  have h2 : ([dictSet cexArtA "relevance_score" (.vnum (9/10)), cexArtB] : List Dict)
      = [cexArtA, cexArtB] := by
    calc ([dictSet cexArtA "relevance_score" (.vnum (9/10)), cexArtB] : List Dict)
        = score_content_relevance true simCexC3 [cexArtA, cexArtB] := rfl
      _ = [cexArtA, cexArtB] := h
  have h1 : dictSet cexArtA "relevance_score" (.vnum (9/10)) = cexArtA :=
    ((List.cons.injEq _ _ _ _).mp h2).1
  have h3 := congrArg (fun d => dictGet d "relevance_score") h1
  simp only [dictGet_dictSet_self] at h3
  exact Option.noConfusion (h3.trans rfl)

/-- Claim C3 amended: on an exception during the scoring pass the
function returns the items in their original order with their lengths
and non-score fields intact; articles scored before the failing one
keep the relevance score already applied in place, the failing article
and everything after it are returned unmodified, and no rank is
assigned by the pass. -/
theorem scoring_exception_keeps_order_and_applied_scores
    (sim : String → Except Unit ℚ) (arts out : List Dict)
    (h : scoreLoop sim arts = .error out) :
    score_content_relevance true sim arts = out ∧
    out.length = arts.length ∧
    (∃ pre pre' a suf, arts = pre ++ a :: suf ∧ out = pre' ++ a :: suf ∧
      List.Forall₂ (scoredFrom sim) pre pre' ∧ sim (articleText a) = .error ()) ∧
    List.Forall₂ (fun a d => ∀ k, k ≠ "relevance_score" → dictGet d k = dictGet a k)
      arts out := by
  obtain ⟨pre, pre', a, suf, h1, h2, h3, h4⟩ := scoreLoop_error_spec sim h
  refine ⟨by simp [score_content_relevance, h], ?_, ⟨pre, pre', a, suf, h1, h2, h3, h4⟩, ?_⟩
  · simp [h1, h2, h3.length_eq]
  · rw [h1, h2]
    refine List.rel_append ?_ ?_
    · refine h3.imp ?_
      rintro x y ⟨q, _, rfl⟩ k hk
      exact dictGet_dictSet_ne x "relevance_score" k _ (fun hx => hk hx.symm)
    · exact List.forall₂_same.mpr (fun d _ _ _ => rfl)

theorem scoring_exception_keeps_order_witness :
    scoreLoop (fun _ => .error ()) [[("title", Val.vstr "w")]]
      = .error [[("title", Val.vstr "w")]] ∧
    score_content_relevance true (fun _ => .error ()) [[("title", Val.vstr "w")]]
      = [[("title", Val.vstr "w")]] :=
  ⟨rfl, (scoring_exception_keeps_order_and_applied_scores
    (fun _ => .error ()) [[("title", Val.vstr "w")]] [[("title", Val.vstr "w")]] rfl).1⟩

/-! ## Claim C7: get_top_content -/

/-- Claim C7: `get_top_content` returns exactly `min n (number of
items)` items, and they are precisely the first elements — a prefix —
of the sequence `score_content_relevance` produces. -/
theorem get_top_returns_min_of_ranked (client : Bool)
    (sim : String → Except Unit ℚ) (articles : List Dict) (n : ℕ) :
    get_top_content client sim articles n
      = (score_content_relevance client sim articles).take n ∧
    (get_top_content client sim articles n).length = min n articles.length ∧
    ∃ rest, score_content_relevance client sim articles
      = get_top_content client sim articles n ++ rest := by
  refine ⟨rfl, ?_, ⟨(score_content_relevance client sim articles).drop n, ?_⟩⟩
  · simp [get_top_content, List.length_take, score_content_relevance_length]
  · exact (List.take_append_drop n _).symm

/-! ## Claim C4: sortedness, contiguous ranks, stability -/

/-- The integer stored under `"rank"`. -/
def rankNum (d : Dict) : Int :=
  match dictGet d "rank" with
  | some (.vint n) => n
  | _ => 0

/-- Drop every entry with the given key (a device for comparing
dictionaries modulo the rank the pass adds). -/
def eraseKey (k : String) (d : Dict) : Dict :=
  d.filter (fun p => p.1 ≠ k)

theorem scoreKey_dictSet_rank (d : Dict) (v : Val) :
    scoreKey (dictSet d "rank" v) = scoreKey d := by
  simp [scoreKey, dictGet_dictSet_ne d "rank" "relevance_score" v (by decide)]

theorem eraseKey_dictSet (d : Dict) (k : String) (v : Val) :
    eraseKey k (dictSet d k v) = eraseKey k d := by
  induction d with
  | nil => simp [dictSet, eraseKey]
  | cons p rest ih =>
    obtain ⟨k0, v0⟩ := p
    by_cases h : k0 = k
    · subst h
      simp [dictSet, eraseKey, List.filter_cons]
    · simp only [dictSet, if_neg h]
      simp only [eraseKey, List.filter_cons, decide_not] at ih ⊢
      simp [h, ih]

theorem filter_orderedInsert_of_key_eq (q : ℚ) (a : Dict) (l : List Dict)
    (ha : scoreKey a = q) :
    (List.orderedInsert scoreGe a l).filter (fun d => scoreKey d = q)
      = a :: l.filter (fun d => scoreKey d = q) := by
  induction l with
  | nil => simp [ha]
  | cons b l ih =>
    by_cases hab : scoreGe a b
    · simp only [List.orderedInsert, if_pos hab]
      simp [List.filter_cons, ha]
    · simp only [List.orderedInsert, if_neg hab]
      have hb : ¬ (scoreKey b = q) := by
        intro hbq
        exact hab (by simp [scoreGe, ha, hbq])
      simp [List.filter_cons, hb, ih]

theorem filter_orderedInsert_of_key_ne (q : ℚ) (a : Dict) (l : List Dict)
    (ha : scoreKey a ≠ q) :
    (List.orderedInsert scoreGe a l).filter (fun d => scoreKey d = q)
      = l.filter (fun d => scoreKey d = q) := by
  induction l with
  | nil => simp [ha]
  | cons b l ih =>
    by_cases hab : scoreGe a b
    · simp only [List.orderedInsert, if_pos hab]
      simp [List.filter_cons, ha]
    · simp only [List.orderedInsert, if_neg hab]
      simp [List.filter_cons, ih]

/-- Stability of the Python sort: the articles at any given score stay
in their pre-sort relative order. -/
theorem filter_sortByScoreDesc (q : ℚ) (l : List Dict) :
    (sortByScoreDesc l).filter (fun d => scoreKey d = q)
      = l.filter (fun d => scoreKey d = q) := by
  induction l with
  | nil => rfl
  | cons a l ih =>
    simp only [sortByScoreDesc, List.insertionSort] at ih ⊢
    by_cases ha : scoreKey a = q
    · rw [filter_orderedInsert_of_key_eq q a _ ha, ih]
      simp [List.filter_cons, ha]
    · rw [filter_orderedInsert_of_key_ne q a _ ha, ih]
      simp [List.filter_cons, ha]

theorem filter_addRanks_eraseRank (q : ℚ) :
    ∀ (i0 : ℕ) (l : List Dict),
    ((addRanks i0 l).filter (fun d => scoreKey d = q)).map (eraseKey "rank")
      = (l.filter (fun d => scoreKey d = q)).map (eraseKey "rank") := by
  intro i0 l
  induction l generalizing i0 with
  | nil => rfl
  | cons a l ih =>
    simp only [addRanks, List.filter_cons, scoreKey_dictSet_rank]
    by_cases ha : scoreKey a = q
    · simp [ha, eraseKey_dictSet, ih]
    · simp [ha, ih]

theorem sortByScoreDesc_sorted (l : List Dict) :
    List.Sorted scoreGe (sortByScoreDesc l) :=
  List.sorted_insertionSort scoreGe l

/-- Claim C4: after a successful scoring pass, lower rank means
greater-or-equal relevance score, the ranks are exactly the 1-based
positions (a contiguous run from 1), and articles with an equal score
keep their relative order from the scored input (stability); the final
conjunct ties the scored input to the original articles. -/
theorem ranked_output_sorted_contiguous_stable
    (sim : String → Except Unit ℚ) (articles scored : List Dict)
    (h : scoreLoop sim articles = .ok scored) :
    (score_content_relevance true sim articles).length = articles.length ∧
    (∀ i j, i < (score_content_relevance true sim articles).length →
      j < (score_content_relevance true sim articles).length →
      rankNum ((score_content_relevance true sim articles).getD i [])
        < rankNum ((score_content_relevance true sim articles).getD j []) →
      scoreKey ((score_content_relevance true sim articles).getD j [])
        ≤ scoreKey ((score_content_relevance true sim articles).getD i [])) ∧
    (∀ i, i < (score_content_relevance true sim articles).length →
      rankNum ((score_content_relevance true sim articles).getD i []) = (i : Int) + 1) ∧
    (∀ q, ((score_content_relevance true sim articles).filter
        (fun d => scoreKey d = q)).map (eraseKey "rank")
      = (scored.filter (fun d => scoreKey d = q)).map (eraseKey "rank")) ∧
    List.Forall₂ (scoredFrom sim) articles scored := by
  have hout : score_content_relevance true sim articles
      = addRanks 0 (sortByScoreDesc scored) := by
    simp [score_content_relevance, h]
  have hf2 := scoreLoop_ok_spec sim h
  have hslen : (sortByScoreDesc scored).length = articles.length := by
    simp [sortByScoreDesc, List.length_insertionSort, ← hf2.length_eq]
  have hlen := score_content_relevance_length true sim articles
  have hrank : ∀ i, i < (score_content_relevance true sim articles).length →
      rankNum ((score_content_relevance true sim articles).getD i []) = (i : Int) + 1 := by
    intro i hi
    rw [hout] at hi ⊢
    rw [addRanks_length] at hi
    rw [addRanks_getD 0 _ i hi]
    simp [rankNum, dictGet_dictSet_self]
  refine ⟨hlen, ?_, hrank, ?_, hf2⟩
  · intro i j hi hj hr
    have hij : i < j := by
      have := hrank i hi
      have := hrank j hj
      omega
    rw [hout] at hi hj ⊢
    rw [addRanks_length] at hi hj
    rw [addRanks_getD 0 _ i hi, addRanks_getD 0 _ j hj,
      scoreKey_dictSet_rank, scoreKey_dictSet_rank,
      List.getD_eq_get _ _ hi, List.getD_eq_get _ _ hj]
    exact (sortByScoreDesc_sorted scored).rel_get_of_lt hij
  · intro q
    rw [hout, filter_addRanks_eraseRank q 0 (sortByScoreDesc scored),
      filter_sortByScoreDesc q scored]

def c4wArts : List Dict := [[("title", .vstr "x")], [("title", .vstr "y")]]

def c4wScored : List Dict :=
  [[("title", .vstr "x"), ("relevance_score", .vnum 1)],
   [("title", .vstr "y"), ("relevance_score", .vnum 1)]]

theorem ranked_output_witness :
    scoreLoop (fun _ => Except.ok (1 : ℚ)) c4wArts = .ok c4wScored ∧
    rankNum ((score_content_relevance true (fun _ => Except.ok (1 : ℚ)) c4wArts).getD 0 [])
      = 1 := by
  have h := ranked_output_sorted_contiguous_stable
    (fun _ => Except.ok (1 : ℚ)) c4wArts c4wScored rfl
  refine ⟨rfl, ?_⟩
  have h0 : 0 < (score_content_relevance true (fun _ => Except.ok (1 : ℚ)) c4wArts).length := by
    rw [h.1]
    decide
  simpa using h.2.2.1 0 h0

/-! ## Claims C5 and C6: idea generation -/

theorem getD_map_of_lt (f : Dict → Dict) (l : List Dict) (i : ℕ) (hi : i < l.length) :
    (l.map f).getD i [] = f (l.getD i []) := by
  induction l generalizing i with
  | nil => simp at hi
  | cons a l ih =>
    cases i with
    | zero => rfl
    | succ i =>
      have hi' : i < l.length := by simpa using hi
      simp only [List.map_cons, List.getD_cons_succ]
      exact ih i hi'

theorem enrichOne_fields (llm : String → Except Unit String) (article : Dict) :
    dictGet (enrichOne llm article) "post_idea"
      = some (.vstr (generate_ideas_for_article llm
          (itemTitle article) (itemSummary article)).1) ∧
    dictGet (enrichOne llm article) "article_idea"
      = some (.vstr (generate_ideas_for_article llm
          (itemTitle article) (itemSummary article)).2) ∧
    ∀ k, k ≠ "post_idea" → k ≠ "article_idea" →
      dictGet (enrichOne llm article) k = dictGet article k := by
  refine ⟨?_, ?_, ?_⟩
  · simp only [enrichOne]
    rw [dictGet_dictSet_ne _ "article_idea" "post_idea" _ (by decide),
      dictGet_dictSet_self]
  · simp only [enrichOne]
    rw [dictGet_dictSet_self]
  · intro k hk1 hk2
    simp only [enrichOne]
    rw [dictGet_dictSet_ne _ "article_idea" k _ (fun h => hk2 h.symm),
      dictGet_dictSet_ne _ "post_idea" k _ (fun h => hk1 h.symm)]

/-- Claim C5: enrichment keeps the sequence length, every output item
keeps all other fields of its input item, and it carries the two new
idea fields. -/
theorem enrich_preserves_items_and_adds_ideas
    (llm : String → Except Unit String) (articles : List Dict) (i : ℕ)
    (hi : i < articles.length) :
    (create_content_ideas true llm articles).length = articles.length ∧
    (∀ k, k ≠ "post_idea" → k ≠ "article_idea" →
      dictGet ((create_content_ideas true llm articles).getD i []) k
        = dictGet (articles.getD i []) k) ∧
    (∃ p, dictGet ((create_content_ideas true llm articles).getD i []) "post_idea"
        = some (.vstr p)) ∧
    (∃ a, dictGet ((create_content_ideas true llm articles).getD i []) "article_idea"
        = some (.vstr a)) := by
  have hmap : create_content_ideas true llm articles = articles.map (enrichOne llm) := by
    simp [create_content_ideas]
  have hget : (create_content_ideas true llm articles).getD i []
      = enrichOne llm (articles.getD i []) := by
    rw [hmap, getD_map_of_lt _ _ i hi]
  refine ⟨by simp [hmap], ?_, ?_, ?_⟩
  · intro k hk1 hk2
    rw [hget]
    exact (enrichOne_fields llm _).2.2 k hk1 hk2
  · exact ⟨_, by rw [hget]; exact (enrichOne_fields llm _).1⟩
  · exact ⟨_, by rw [hget]; exact (enrichOne_fields llm _).2.1⟩

theorem enrich_preserves_items_witness :
    ((create_content_ideas true (fun _ => Except.ok "POST IDEA: p\nARTICLE IDEA: a")
      [[("title", Val.vstr "t")]]).length = 1) ∧
    (∃ p, dictGet ((create_content_ideas true
        (fun _ => Except.ok "POST IDEA: p\nARTICLE IDEA: a")
        [[("title", Val.vstr "t")]]).getD 0 []) "post_idea" = some (.vstr p)) := by
  have h := enrich_preserves_items_and_adds_ideas
    (fun _ => Except.ok "POST IDEA: p\nARTICLE IDEA: a") [[("title", Val.vstr "t")]]
    0 (by decide)
  exact ⟨h.1, h.2.2.1⟩

/-- Claim C6: a request exception for one item yields the two fixed
error strings for that item, and every item of the batch — including
the others — is still processed independently, its result being
exactly the enrichment of that item alone. -/
theorem enrich_failure_is_isolated
    (llm : String → Except Unit String) (articles : List Dict) (i : ℕ)
    (hi : i < articles.length)
    (hfail : llm (promptFor (itemTitle (articles.getD i []))
        (itemSummary (articles.getD i []))) = .error ()) :
    dictGet ((create_content_ideas true llm articles).getD i []) "post_idea"
      = some (.vstr "Error generating post idea") ∧
    dictGet ((create_content_ideas true llm articles).getD i []) "article_idea"
      = some (.vstr "Error generating article idea") ∧
    ∀ j, j < articles.length →
      (create_content_ideas true llm articles).getD j []
        = enrichOne llm (articles.getD j []) := by
  have hmap : create_content_ideas true llm articles = articles.map (enrichOne llm) := by
    simp [create_content_ideas]
  have hget : (create_content_ideas true llm articles).getD i []
      = enrichOne llm (articles.getD i []) := by
    rw [hmap, getD_map_of_lt _ _ i hi]
  have hgen : generate_ideas_for_article llm (itemTitle (articles.getD i []))
      (itemSummary (articles.getD i []))
      = ("Error generating post idea", "Error generating article idea") := by
    unfold generate_ideas_for_article
    rw [hfail]
  refine ⟨?_, ?_, fun j hj => by rw [hmap, getD_map_of_lt _ _ j hj]⟩
  · rw [hget, (enrichOne_fields llm _).1, hgen]
  · rw [hget, (enrichOne_fields llm _).2.1, hgen]

theorem enrich_failure_witness :
    dictGet ((create_content_ideas true (fun _ => Except.error ())
        [[("title", Val.vstr "t")], [("title", Val.vstr "u")]]).getD 0 []) "post_idea"
      = some (.vstr "Error generating post idea") ∧
    dictGet ((create_content_ideas true (fun _ => Except.error ())
        [[("title", Val.vstr "t")], [("title", Val.vstr "u")]]).getD 1 []) "article_idea"
      = some (.vstr "Error generating article idea") := by
  have h0 := enrich_failure_is_isolated (fun _ => Except.error ())
    [[("title", Val.vstr "t")], [("title", Val.vstr "u")]] 0 (by decide) rfl
  have h1 := enrich_failure_is_isolated (fun _ => Except.error ())
    [[("title", Val.vstr "t")], [("title", Val.vstr "u")]] 1 (by decide) rfl
  exact ⟨h0.1, h1.2.1⟩

/-! ## Claim C10: clean_and_structure_data -/

/-- The canonical fields a structured item copies (with defaults) from
its raw item. -/
def canonicalFields : List String :=
  ["title", "summary", "source", "url", "published_date", "category", "keywords"]

/-- The empty value a missing canonical field defaults to. -/
def canonicalDefault (f : String) : Val :=
  if f = "keywords" then .vlist [] else .vstr ""

/-- Claim C10: structuring a collected mapping yields all research
items (in order) followed by all rss items (in order), one output per
input; each structured item records its bucket as `source_type`, keeps
the raw record under `original_data`, and defaults each missing
canonical field to its empty value. -/
theorem structure_projects_and_defaults
    (R S : List Dict) (t : String) (item : Dict) (f : String)
    (hf : f ∈ canonicalFields) (hmiss : dictGet item f = none) :
    clean_and_structure_data [("research", R), ("rss", S)]
      = R.map (structureItem "research") ++ S.map (structureItem "rss") ∧
    (clean_and_structure_data [("research", R), ("rss", S)]).length
      = R.length + S.length ∧
    dictGet (structureItem t item) "source_type" = some (.vstr t) ∧
    dictGet (structureItem t item) "original_data" = some (.vdict item) ∧
    dictGet (structureItem t item) f = some (canonicalDefault f) := by
  refine ⟨by simp [clean_and_structure_data], by simp [clean_and_structure_data],
    rfl, rfl, ?_⟩
  fin_cases hf <;>
    simp [structureItem, dictGet, dictGetD, canonicalDefault, hmiss]

theorem structure_projects_witness :
    ("title" ∈ canonicalFields) ∧
    dictGet (structureItem "research" ([] : Dict)) "title"
      = some (canonicalDefault "title") ∧
    clean_and_structure_data [("research", [([("url", Val.vstr "u")] : Dict)]), ("rss", [])]
      = [structureItem "research" [("url", Val.vstr "u")]] := by
  have h := structure_projects_and_defaults [[("url", Val.vstr "u")]] [] "research"
    ([] : Dict) "title" (by decide) rfl
  exact ⟨by decide, h.2.2.2.2, by simpa using h.1⟩

/-! ## Claim C9: snapshot persistence round-trip -/

mutual

theorem load_dumpVal : ∀ v : Val, loadVal (dumpVal v) = v
  | .vnull => rfl
  | .vbool _ => rfl
  | .vint _ => rfl
  | .vnum _ => rfl
  | .vstr _ => rfl
  | .vlist xs => by simp only [dumpVal, loadVal, load_dumpList xs]
  | .vdict fs => by simp only [dumpVal, loadVal, load_dumpFields fs]

theorem load_dumpList : ∀ xs : List Val, loadList (dumpList xs) = xs
  | [] => rfl
  | v :: vs => by simp only [dumpList, loadList, load_dumpVal v, load_dumpList vs]

theorem load_dumpFields : ∀ fs : List (String × Val), loadFields (dumpFields fs) = fs
  | [] => rfl
  | (k, v) :: fs => by simp only [dumpFields, loadFields, load_dumpVal v, load_dumpFields fs]

end

/-- Claim C9: writing the snapshot and reading it back is the identity
on the feed, and in particular the `content_ideas` array read back for
notification is field-for-field the array that was persisted. -/
theorem snapshot_roundtrip_preserves_content_ideas (now : String) (ideas : List Dict) :
    persistAndRead (mkFeedData now ideas) = mkFeedData now ideas ∧
    readFeedArticles (persistAndRead (mkFeedData now ideas))
      = .vlist (ideas.map .vdict) := by
  have h : persistAndRead (mkFeedData now ideas) = mkFeedData now ideas :=
    load_dumpVal (mkFeedData now ideas)
  refine ⟨h, ?_⟩
  rw [h]
  rfl

/-! ## Claim C1: run_complete_pipeline -/

theorem create_content_ideas_length (client : Bool) (llm : String → Except Unit String)
    (l : List Dict) : (create_content_ideas client llm l).length = l.length := by
  cases client <;> simp [create_content_ideas]

theorem score_of_sim_error (sim : String → Except Unit ℚ)
    (h : ∀ s, sim s = .error ()) (l : List Dict) :
    score_content_relevance true sim l = l := by
  cases l with
  | nil => rfl
  | cons a rest => simp [score_content_relevance, scoreLoop, h (articleText a)]

/-- Claim C1: the pipeline always continues through every stage down
to the summary; the failure object appears exactly when the summary
construction raises — which it never does, so no run produces it;
a collection exception degrades to empty buckets, a scoring exception
degrades the ranked stage to the first `top_n` structured items, and
the enrichment stage keeps one output item per ranked item whatever
its oracle does. -/
theorem pipeline_stage_fallbacks_and_failure_shape
    (researchO rssO : Except Unit (List Dict)) (rclient : Bool)
    (sim : String → Except Unit ℚ) (iclient : Bool)
    (llm : String → Except Unit String) (now : String) (top_n : ℕ) :
    let raw := gather_all_data researchO rssO
    let structured := clean_and_structure_data raw
    let ranked := rank_content_by_relevance rclient sim structured top_n
    let ideas := generate_creative_ideas iclient llm ranked
    let res := run_complete_pipeline researchO rssO rclient sim iclient llm now top_n
    res = pipelineSummary now raw structured ranked ideas ∧
    (∀ e, (mkSummaryE now raw structured ranked ideas = .error e
      ↔ res = pipelineFailure now e)) ∧
    (∀ e, res ≠ pipelineFailure now e) ∧
    dictGet res "status" = none ∧
    ((researchO = .error () ∨ rssO = .error ()) →
      raw = [("research", []), ("rss", [])] ∧ structured = []) ∧
    (rclient = true → (∀ s, sim s = .error ()) → ranked = structured.take top_n) ∧
    ideas.length = ranked.length := by
  intro raw structured ranked ideas res
  have hne : ∀ e, res ≠ pipelineFailure now e := by
    intro e h
    have hstat : dictGet res "status" = none := rfl
    rw [h] at hstat
    simp [pipelineFailure, dictGet] at hstat
  refine ⟨rfl, ?_, hne, rfl, ?_, ?_, ?_⟩
  · intro e
    constructor
    · intro h
      exact absurd h (by simp [mkSummaryE])
    · intro h
      exact absurd h (hne e)
  · intro h
    rcases h with h | h
    · subst h
      cases rssO <;> exact ⟨rfl, rfl⟩
    · subst h
      cases researchO <;> exact ⟨rfl, rfl⟩
  · intro h1 h2
    subst h1
    have hs : score_content_relevance true sim
        (clean_and_structure_data (gather_all_data researchO rssO))
        = clean_and_structure_data (gather_all_data researchO rssO) :=
      score_of_sim_error sim h2 _
    show rank_content_by_relevance true sim
        (clean_and_structure_data (gather_all_data researchO rssO)) top_n
      = (clean_and_structure_data (gather_all_data researchO rssO)).take top_n
    simp [rank_content_by_relevance, get_top_content, hs]
  · show (generate_creative_ideas iclient llm
        (rank_content_by_relevance rclient sim
          (clean_and_structure_data (gather_all_data researchO rssO)) top_n)).length
      = (rank_content_by_relevance rclient sim
          (clean_and_structure_data (gather_all_data researchO rssO)) top_n).length
    simp [generate_creative_ideas, create_content_ideas_length]

theorem pipeline_witness :
    clean_and_structure_data (gather_all_data (Except.error ()) (Except.ok [])) = [] ∧
    rank_content_by_relevance true (fun _ => Except.error ())
      (clean_and_structure_data (gather_all_data (Except.error ()) (Except.ok []))) 10
      = (clean_and_structure_data
          (gather_all_data (Except.error ()) (Except.ok []))).take 10 ∧
    dictGet (run_complete_pipeline (Except.error ()) (Except.ok []) true
      (fun _ => Except.error ()) true (fun _ => Except.ok "x")
      "2024-01-01T00:00:00" 10) "status" = none := by
  have h := pipeline_stage_fallbacks_and_failure_shape (Except.error ()) (Except.ok [])
    true (fun _ => Except.error ()) true (fun _ => Except.ok "x")
    "2024-01-01T00:00:00" 10
  exact ⟨(h.2.2.2.2.1 (Or.inl rfl)).2, h.2.2.2.2.2.1 rfl (fun _ => rfl), h.2.2.2.1⟩

/-! ## Claim C8: the notifier send path -/

/-- Counterexample to claim C8 as stated: with a bot token configured
but no chat id, a transport failure of the unguarded discovery call in
`set_chat_id` propagates out of `send_message` — the send path DOES
raise on this transport failure. -/
theorem notifier_never_raises_counterexample :
    send_message ⟨some "t", none⟩ (Except.error ()) (Except.ok 200) "hi"
      = .error () := rfl

theorem send_message_no_raise (st : BotState) (getResp : Except Unit (ℕ × Val))
    (post : Except Unit ℕ) (text : String)
    (hc : st.chat_id.isSome ∨ st.bot_token = none) :
    ∃ b st' n, send_message st getResp post text = .ok (b, st', n) ∧ n ≤ 1 ∧
      (post = .error () → b = false) := by
  cases hbt : st.bot_token with
  | none => exact ⟨false, st, 0, by simp [send_message, hbt], by omega, fun _ => rfl⟩
  | some tok =>
    have hcid : st.chat_id.isSome := by
      rcases hc with h | h
      · exact h
      · rw [hbt] at h
        exact Option.noConfusion h
    obtain ⟨cid, hcid'⟩ := Option.isSome_iff_exists.mp hcid
    cases post with
    | ok status =>
      refine ⟨decide (status = 200), st, 1, by simp [send_message, hbt, hcid'], by omega, ?_⟩
      intro h
      exact Except.noConfusion h
    | error e =>
      exact ⟨false, st, 1, by simp [send_message, hbt, hcid'], by omega, fun _ => rfl⟩

theorem summaryLines_total :
    ∀ (articles : List Dict),
      (∀ a ∈ articles, (dictGet a "title").isSome ∧ (dictGet a "url").isSome) →
      ∀ i, ∃ s, summaryLines i articles = some s
  | [], _, _ => ⟨"", rfl⟩
  | a :: l, hf, i => by
    obtain ⟨ht, hu⟩ := hf a (List.mem_cons_self a l)
    obtain ⟨t, ht'⟩ := Option.isSome_iff_exists.mp ht
    obtain ⟨u, hu'⟩ := Option.isSome_iff_exists.mp hu
    obtain ⟨s, hs⟩ := summaryLines_total l
      (fun b hb => hf b (List.mem_cons_of_mem a hb)) (i + 1)
    exact ⟨toString i ++ ". " ++ pyStr t ++ "\n" ++ "   " ++ pyStr u ++ "\n\n" ++ s,
      by simp [summaryLines, ht', hu', hs]⟩

/-- Claim C8 amended: provided the chat id is configured (or the bot
token is missing), and every summarised item carries its title and
url fields, the send path never raises: `send_message` returns a
boolean (False when the POST transport fails) and `send_daily_summary`
returns its `None`; at most one outbound POST is issued per send — no
retry.  (When the chat id is unconfigured, the unguarded discovery
call makes `send_message` propagate a transport exception — see the
counterexample.) -/
theorem notifier_no_raise_no_retry_when_configured
    (st : BotState) (getResp : Except Unit (ℕ × Val)) (post : Except Unit ℕ)
    (text today link : String) (articles : List Dict)
    (hc : st.chat_id.isSome ∨ st.bot_token = none)
    (hf : ∀ a ∈ articles, (dictGet a "title").isSome ∧ (dictGet a "url").isSome) :
    (∃ b st' n, send_message st getResp post text = .ok (b, st', n) ∧ n ≤ 1 ∧
      (post = .error () → b = false)) ∧
    (∃ st' n, send_daily_summary st getResp post today link articles
      = .ok (st', n) ∧ n ≤ 1) := by
  refine ⟨send_message_no_raise st getResp post text hc, ?_⟩
  cases harts : articles with
  | nil =>
    obtain ⟨b, st', n, hsm, hn, _⟩ := send_message_no_raise st getResp post
      "🤖 Daily AI Summary\n\nNo articles found today." hc
    exact ⟨st', n, by simp [send_daily_summary, hsm], hn⟩
  | cons a l =>
    obtain ⟨body, hbody⟩ := summaryLines_total articles hf 1
    rw [harts] at hbody
    obtain ⟨b, st', n, hsm, hn, _⟩ := send_message_no_raise st getResp post
      ("🤖 Daily AI Summary - " ++ today ++ "\n\n" ++
        "Click here to read more articles: " ++ link ++ "\n\nTop Articles:\n\n" ++ body) hc
    refine ⟨st', n, ?_, hn⟩
    have hred : send_daily_summary st getResp post today link (a :: l)
        = (match summaryLines 1 (a :: l) with
          | none => Except.error ()
          | some body =>
            match send_message st getResp post
              ("🤖 Daily AI Summary - " ++ today ++ "\n\n" ++
                "Click here to read more articles: " ++ link ++ "\n\nTop Articles:\n\n" ++ body) with
            | .error e => Except.error e
            | .ok (_, st2, n2) => Except.ok (st2, n2)) := rfl
    rw [hred, hbody]
    simp only [hsm]

theorem notifier_no_raise_witness :
    (∃ b st' n, send_message ⟨some "t", some (Val.vstr "1")⟩ (Except.ok (200, Val.vnull))
      (Except.error ()) "hi" = .ok (b, st', n) ∧ n ≤ 1 ∧
      (Except.error () = (Except.error () : Except Unit ℕ) → b = false)) ∧
    (∃ st' n, send_daily_summary ⟨some "t", some (Val.vstr "1")⟩ (Except.ok (200, Val.vnull))
      (Except.error ()) "May 01" "http://x"
      [[("title", Val.vstr "a"), ("url", Val.vstr "u")]] = .ok (st', n) ∧ n ≤ 1) := by
  have h := notifier_no_raise_no_retry_when_configured ⟨some "t", some (Val.vstr "1")⟩
    (Except.ok (200, Val.vnull)) (Except.error ()) "hi" "May 01" "http://x"
    [[("title", Val.vstr "a"), ("url", Val.vstr "u")]] (Or.inl rfl)
    (by
      intro a ha
      simp only [List.mem_singleton] at ha
      subst ha
      exact ⟨rfl, rfl⟩)
  exact h

end AIIntelHub
